import Mathlib

/-!
Verification development for the `adaops` repository.

Embedded code:
* `min_utxo_math` from `src/adaops/tx.py` (lines 276-381): the manual
  minimum-UTXO calculator over a `--tx-out` descriptor string.
* `h2a` from `src/adaops/var.py` (lines 158-168): hex-to-ASCII conversion
  built on `binascii.unhexlify` followed by UTF-8 decoding.
* the bounded-retries loop of `get_current_tip` from `src/adaops/var.py`
  (lines 436-495).

Python strings are modelled as `List Char`; the single-character variants of
`str.split`, `str.replace` and `filter(None, ...)` used by the code are
modelled directly below.  Python integers are `Nat` (every quantity involved
is non-negative); `math.floor(a / b)` on the magnitudes that occur (protocol
parameters far below 2^52) agrees with `Nat` division, which is how it is
modelled.  Python exceptions are modelled with `Except`.
-/

namespace Adaops

/-- Model of Python `s.split(sep)` for a single-character separator:
splits on every occurrence and keeps empty fragments, and the result is
always non-empty (`"".split(sep) == [""]`). -/
def splitChar (c : Char) : List Char → List (List Char)
  | [] => [[]]
  | x :: xs =>
    match splitChar c xs with
    | [] => [[]]
    | g :: gs => if x = c then [] :: g :: gs else (x :: g) :: gs

/-- Model of Python `s.replace(ch, "")` for a single character: every
occurrence is removed. -/
def removeChar (c : Char) (s : List Char) : List Char :=
  s.filter (fun x => x ≠ c)

/-- Model of `list(filter(None, part.replace('"', "").split(" ")))` from
`min_utxo_math`: strip double quotes, split on single spaces, drop the empty
fragments (Python `filter(None, ...)` keeps only truthy, i.e. non-empty,
strings). -/
def tokensOf (part : List Char) : List (List Char) :=
  (splitChar ' ' (removeChar '"' part)).filter (fun t => !t.isEmpty)

/-- One lowercase hexadecimal digit, as produced by Python `bytes.hex()`. -/
def hexDigitChar (n : Nat) : Char :=
  if n < 10 then Char.ofNat (48 + n) else Char.ofNat (87 + n)

/-- Two lowercase hex digits for one byte, as produced by `bytes.hex()`. -/
def byteToHexChars (b : Nat) : List Char :=
  [hexDigitChar (b / 16), hexDigitChar (b % 16)]

/-- UTF-8 encoding of one character as a list of byte values, the model of
Python `str.encode("utf-8")` acting on a single code point. -/
def utf8EncodeCharBytes (c : Char) : List Nat :=
  let n := c.toNat
  if n < 0x80 then [n]
  else if n < 0x800 then [0xC0 + n / 0x40, 0x80 + n % 0x40]
  else if n < 0x10000 then
    [0xE0 + n / 0x1000, 0x80 + n / 0x40 % 0x40, 0x80 + n % 0x40]
  else
    [0xF0 + n / 0x40000, 0x80 + n / 0x1000 % 0x40, 0x80 + n / 0x40 % 0x40,
      0x80 + n % 0x40]

/-- Model of Python `s.encode("utf-8").hex()` (line 346 of `tx.py`):
UTF-8 bytes rendered as lowercase hex digits. -/
def encodeHex (s : List Char) : List Char :=
  s.flatMap (fun c => (utf8EncodeCharBytes c).flatMap byteToHexChars)

/-- The two protocol parameters read by `min_utxo_math` from the
protocol-parameters JSON file.  The embedding assumes both fields are
present and numeric (the Python code would propagate `None` otherwise). -/
structure ProtocolParams where
  minUTxOValue : Nat
  utxoCostPerWord : Nat
  deriving DecidableEq

/-- The Python exceptions `min_utxo_math` can raise on the modelled paths:
`UnboundLocalError` (reading `pidCollector` at line 362 when the
assets branch at line 324 was not taken) and `IndexError` (subscripting
`complete_asset_info[1]` or `asset_hash_data_lst[1]`). -/
inductive PyErr where
  | unboundLocalError
  | indexError
  deriving DecidableEq

/-- The chain constant `k0` (lines 299-301): `coinSize`, 2 in the alonzo
era and 0 otherwise. -/
def k0Of (era : String) : Nat :=
  if era = "alonzo" then 2 else 0

/-- `adaOnlyUTxOSize = utxoEntrySizeWithoutVal + k0` (line 307). -/
def adaOnlyUTxOSizeOf (era : String) : Nat :=
  27 + k0Of era

/-- The value held by the Python variable `minUTXOValue` after lines
309-313: the flat `minUTxOValue` parameter, overwritten for era "alonzo"
by `utxoCostPerWord * adaOnlyUTxOSize`. -/
def minUTXOValueOf (pp : ProtocolParams) (era : String) : Nat :=
  if era = "alonzo" then pp.utxoCostPerWord * adaOnlyUTxOSizeOf era
  else pp.minUTxOValue

/-- The asset name actually collected for one entry (lines 342-346): the
raw name when `hex_name` is set, its UTF-8 hex encoding otherwise. -/
def hexNameOf (hexName : Bool) (nm : List Char) : List Char :=
  if hexName then nm else encodeHex nm

/-- Parsing of one asset part (lines 333-341): the part is tokenised by
`tokensOf`, token 1 is the asset hash, which is split on a dot into the
policy id (index 0) and the asset name (index 1).  Surplus tokens and
surplus dot-separated fields are ignored; a missing token 1 or a missing
dot field 1 is an `IndexError`, modelled as `none`. -/
def parseAssetPart (part : List Char) : Option (List Char × List Char) :=
  match tokensOf part with
  | _ :: assetHash :: _ =>
    match splitChar '.' assetHash with
    | policy :: hexname :: _ => some (policy, hexname)
    | _ => none
  | _ => none

/-- The iteration of the `while` loop over `parts[2:]` (lines 331-358),
stopping at the first entry that raises. -/
def parseAssets : List (List Char) → Option (List (List Char × List Char))
  | [] => some []
  | p :: rest =>
    match parseAssetPart p, parseAssets rest with
    | some e, some es => some (e :: es)
    | _, _ => none

/-- The three collector lists built by the loop body (lines 354-357):
`pidCollector`, `assetsCollector` (policy id concatenated with the hex
name) and `nameCollector` (hex names, only when non-empty). -/
def collectors (hexName : Bool) :
    List (List Char × List Char) →
    List (List Char) × List (List Char) × List (List Char)
  | [] => ([], [], [])
  | (pid, nm) :: rest =>
    let hx := hexNameOf hexName nm
    let (ps, ids, ns) := collectors hexName rest
    (pid :: ps, (pid ++ hx) :: ids, if hx.isEmpty then ns else hx :: ns)

/-- Lines 361-381 of `tx.py`: the arithmetic on the collector lists.
`len(set(...))` is `dedup.length`; `len("".join(set(names)))` is the sum
of the lengths of the distinct names (`.strip()` is a no-op for the
space-free fragments produced by the tokeniser, and Python set iteration
order makes it meaningless otherwise); `int(x / 2)` and `math.floor` on
these magnitudes are `Nat` division. -/
def minUtxoFromCollectors (minUTXOValue adaOnlyUTxOSize : Nat)
    (pidCollector assetsCollector nameCollector : List (List Char)) : Nat :=
  let k1 := 6
  let k2 := 12
  let k3 := 28
  let k4 := 8
  let utxoEntrySizeWithoutVal := 27
  let numPIDs := pidCollector.dedup.length
  let numAssets := assetsCollector.dedup.length
  let sumAssetNameLengths := (nameCollector.dedup.map List.length).sum / 2
  let roundupBytesToWords :=
    (numAssets * k2 + sumAssetNameLengths + numPIDs * k3 + (k4 - 1)) / k4
  let tokenBundleSize := k1 + roundupBytesToWords
  let minAda :=
    minUTXOValue / adaOnlyUTxOSize * (utxoEntrySizeWithoutVal + tokenBundleSize)
  if minAda > minUTXOValue then minAda else minUTXOValue

/-- The whole computation of `min_utxo_math` after parsing, on a list of
(policy id, raw asset name) entries. -/
def minUtxoEntries (pp : ProtocolParams) (hexName : Bool) (era : String)
    (entries : List (List Char × List Char)) : Nat :=
  let (ps, ids, ns) := collectors hexName entries
  minUtxoFromCollectors (minUTXOValueOf pp era) (adaOnlyUTxOSizeOf era) ps ids ns

/-- `min_utxo_math(tx_out, protocol_fpath, hex_name, era)` from
`src/adaops/tx.py`.  The file read is abstracted into the
`ProtocolParams` argument.  `tx_out` is split on the plus sign; with more
than two parts the assets branch runs (raising `IndexError` on an entry
with too few fields), and with at most two parts line 362 reads the never
assigned `pidCollector` and Python raises `UnboundLocalError`. -/
def min_utxo_math (txOut : String) (pp : ProtocolParams) (hexName : Bool)
    (era : String) : Except PyErr Nat :=
  let parts := splitChar '+' txOut.data
  if 2 < parts.length then
    match parseAssets (parts.drop 2) with
    | none => .error .indexError
    | some entries => .ok (minUtxoEntries pp hexName era entries)
  else
    .error .unboundLocalError

/-- Concrete protocol parameters used by the witnesses:
`minUTxOValue` of 1000000 lovelace and the historical alonzo
`utxoCostPerWord` of 34482. -/
def sampleParams : ProtocolParams :=
  { minUTxOValue := 1000000, utxoCostPerWord := 34482 }

/-! Specification-side restatement of the token-bundle formula, written
from the words of the specification (section 4.1) for comparison with the
code path `minUtxoFromCollectors`: the deduplicated counts are stated as
cardinalities of finite sets and the name-length total as a sum over the
set of distinct names. -/

/-- Spec: the count of deduplicated policy ids of the bundle. -/
def numPIDsSpec (entries : List (List Char × List Char)) : Nat :=
  ((entries.map Prod.fst).toFinset).card

/-- Spec: the count of deduplicated policy-id+name identifiers. -/
def numAssetsSpec (hexName : Bool) (entries : List (List Char × List Char)) : Nat :=
  ((entries.map (fun e => e.1 ++ hexNameOf hexName e.2)).toFinset).card

/-- Spec: the total hex-character count across unique asset names,
divided by 2 to give bytes. -/
def sumAssetNameLengthsSpec (hexName : Bool)
    (entries : List (List Char × List Char)) : Nat :=
  (Finset.sum ((entries.map (fun e => hexNameOf hexName e.2)).toFinset)
    List.length) / 2

/-- Spec: `roundupBytesToWords = floor((numAssets*12 + sumAssetNameLengths
+ numPIDs*28 + 7) / 8)`. -/
def roundupBytesToWordsSpec (hexName : Bool)
    (entries : List (List Char × List Char)) : Nat :=
  (numAssetsSpec hexName entries * 12 + sumAssetNameLengthsSpec hexName entries
    + numPIDsSpec entries * 28 + 7) / 8

/-- Spec: `minAda = floor(minUTxOValue / adaOnlyUTxOSize) *
(utxoEntrySizeWithoutVal + tokenBundleSize)` with
`utxoEntrySizeWithoutVal = 27` and `tokenBundleSize = 6 +
roundupBytesToWords`. -/
def minAdaSpec (pp : ProtocolParams) (hexName : Bool) (era : String)
    (entries : List (List Char × List Char)) : Nat :=
  minUTXOValueOf pp era / adaOnlyUTxOSizeOf era *
    (27 + (6 + roundupBytesToWordsSpec hexName entries))

/-! The hex-to-ASCII conversion `h2a` of `src/adaops/var.py`. -/

/-- The `binascii.Error` cases of `binascii.unhexlify`: an odd-length
input, or a character that is not a hexadecimal digit. -/
inductive BinasciiErr where
  | oddLengthString
  | nonHexDigit
  deriving DecidableEq

/-- Value of one hexadecimal digit as accepted by `binascii.unhexlify`
(both cases accepted). -/
def hexVal (c : Char) : Option Nat :=
  if '0' ≤ c ∧ c ≤ '9' then some (c.toNat - 48)
  else if 'a' ≤ c ∧ c ≤ 'f' then some (c.toNat - 87)
  else if 'A' ≤ c ∧ c ≤ 'F' then some (c.toNat - 55)
  else none

/-- Decoding of an even-length list of hex digits into byte values. -/
def unhexlifyPairs : List Char → Except BinasciiErr (List Nat)
  | [] => .ok []
  | [_] => .error .oddLengthString
  | c1 :: c2 :: rest =>
    match hexVal c1, hexVal c2, unhexlifyPairs rest with
    | some hi, some lo, .ok bs => .ok ((hi * 16 + lo) :: bs)
    | some _, some _, .error e => .error e
    | _, _, _ => .error .nonHexDigit

/-- Model of Python `binascii.unhexlify`: an odd-length input raises
`binascii.Error("Odd-length string")` (checked first), a non-hex digit
raises `binascii.Error("Non-hexadecimal digit found")`. -/
def unhexlify (s : String) : Except BinasciiErr (List Nat) :=
  if s.length % 2 = 1 then .error .oddLengthString
  else unhexlifyPairs s.data

/-- True for a UTF-8 continuation byte (0x80-0xBF). -/
def isContByte (b : Nat) : Bool :=
  decide (0x80 ≤ b) && decide (b < 0xC0)

/-- Allowed second byte after a three-byte leader, excluding overlong
encodings (leader 0xE0) and surrogates (leader 0xED). -/
def lead3SecondOk (b b2 : Nat) : Bool :=
  if b = 0xE0 then decide (0xA0 ≤ b2) && decide (b2 < 0xC0)
  else if b = 0xED then decide (0x80 ≤ b2) && decide (b2 < 0xA0)
  else isContByte b2

/-- Allowed second byte after a four-byte leader, excluding overlong
encodings (leader 0xF0) and values beyond U+10FFFF (leader 0xF4). -/
def lead4SecondOk (b b2 : Nat) : Bool :=
  if b = 0xF0 then decide (0x90 ≤ b2) && decide (b2 < 0xC0)
  else if b = 0xF4 then decide (0x80 ≤ b2) && decide (b2 < 0x90)
  else isContByte b2

/-- Model of Python `bytes.decode()` (strict UTF-8): decodes a byte list
into characters, rejecting truncated sequences, stray continuation bytes,
overlong encodings, surrogates and values beyond U+10FFFF. -/
def decodeUtf8 : List Nat → Option (List Char)
  | [] => some []
  | b :: rest =>
    if b < 0x80 then (decodeUtf8 rest).map (fun cs => Char.ofNat b :: cs)
    else if b < 0xC2 then none
    else if b < 0xE0 then
      match rest with
      | b2 :: rest2 =>
        if isContByte b2 then
          (decodeUtf8 rest2).map
            (fun cs => Char.ofNat ((b - 0xC0) * 0x40 + (b2 - 0x80)) :: cs)
        else none
      | [] => none
    else if b < 0xF0 then
      match rest with
      | b2 :: b3 :: rest3 =>
        if lead3SecondOk b b2 && isContByte b3 then
          (decodeUtf8 rest3).map (fun cs =>
            Char.ofNat ((b - 0xE0) * 0x1000 + (b2 - 0x80) * 0x40 + (b3 - 0x80))
              :: cs)
        else none
      | _ => none
    else if b < 0xF5 then
      match rest with
      | b2 :: b3 :: b4 :: rest4 =>
        if lead4SecondOk b b2 && isContByte b3 && isContByte b4 then
          (decodeUtf8 rest4).map (fun cs =>
            Char.ofNat ((b - 0xF0) * 0x40000 + (b2 - 0x80) * 0x1000 +
              (b3 - 0x80) * 0x40 + (b4 - 0x80)) :: cs)
        else none
      | _ => none
    else none

/-- The errors `h2a` can raise: a `binascii.Error` from `unhexlify`, or a
`UnicodeDecodeError` from `.decode()`. -/
inductive H2aErr where
  | binascii (e : BinasciiErr)
  | unicodeDecodeError
  deriving DecidableEq

/-- `h2a(hex_s)` from `src/adaops/var.py` lines 158-168: an odd character
count is logged as a warning (no effect on the value), then the result is
`unhexlify(hex_s).decode()`. -/
def h2a (s : String) : Except H2aErr String :=
  match unhexlify s with
  | .error e => .error (.binascii e)
  | .ok bs =>
    match decodeUtf8 bs with
    | none => .error .unicodeDecodeError
    | some cs => .ok (String.mk cs)

/-! The bounded-retries loop of `get_current_tip` in `src/adaops/var.py`
(lines 460-495).  One call of `cardano_cli.run` is abstracted as one value
of `CmdResult`; the sequence of calls the external process would answer is
an oracle indexed by invocation number. -/

/-- Outcome of one `cardano_cli.run(*args)` call as branched on by the
loop body: success (`rc == 0`), a stderr starting with "MuxError", the
connection-refused stderr, or any other failure. -/
inductive CmdResult where
  | success (stdout : String)
  | muxError
  | connectionRefused
  | otherError
  deriving DecidableEq

/-- How the call to `get_current_tip` ends: the loop finds a successful
result (whose stdout is then JSON-parsed), raises `NodeDown`, raises
`BadCmd`, or exhausts its retries. -/
inductive TipOutcome where
  | gotResult (stdout : String)
  | nodeDown
  | badCmd
  | retriesExhausted
  deriving DecidableEq

/-- The `while not exec_success and _retries > 0` loop: argument `i` is
the index of the next invocation, the second argument the current value of
`_retries`.  Returns the outcome together with the number of invocations
performed.  Each iteration first decrements `_retries`, then runs the
command; only the MuxError branch reaches the next iteration. -/
def getCurrentTipAttempts (oracle : Nat → CmdResult) :
    Nat → Nat → TipOutcome × Nat
  | _, 0 => (.retriesExhausted, 0)
  | i, n + 1 =>
    match oracle i with
    | .success out => (.gotResult out, 1)
    | .connectionRefused => (.nodeDown, 1)
    | .otherError => (.badCmd, 1)
    | .muxError =>
      let r := getCurrentTipAttempts oracle (i + 1) n
      (r.1, r.2 + 1)

/-- `get_current_tip(item, retries, return_json)` reduced to its retry
loop: the invocations start at index 0 with the full retries budget. -/
def get_current_tip (oracle : Nat → CmdResult) (retries : Nat) :
    TipOutcome × Nat :=
  getCurrentTipAttempts oracle 0 retries

/-! Helper lemmas. -/

theorem ite_gt_eq_max (m a : Nat) : (if a > m then a else m) = max m a := by
  split <;> omega

theorem collectors_eq (hx : Bool) (l : List (List Char × List Char)) :
    collectors hx l =
      (l.map Prod.fst,
       l.map (fun e => e.1 ++ hexNameOf hx e.2),
       (l.map (fun e => hexNameOf hx e.2)).filter (fun n => !n.isEmpty)) := by
  induction l with
  | nil => rfl
  | cons e rest ih =>
    by_cases h : (hexNameOf hx e.2).isEmpty <;>
      simp [collectors, ih, h, List.filter_cons]

theorem dedup_length_eq_card {α : Type} [DecidableEq α] (l : List α) :
    l.dedup.length = l.toFinset.card :=
  (List.card_toFinset l).symm

theorem toFinset_dedup_list {α : Type} [DecidableEq α] (l : List α) :
    l.dedup.toFinset = l.toFinset := by
  ext x
  simp [List.mem_toFinset, List.mem_dedup]

theorem sum_dedup_eq (l : List (List Char)) :
    ((l.dedup.map List.length)).sum = Finset.sum l.toFinset List.length := by
  rw [← toFinset_dedup_list l, List.sum_toFinset _ (List.nodup_dedup l)]

theorem sum_filter_nonempty (l : List (List Char)) :
    (((l.filter (fun n => !n.isEmpty)).dedup.map List.length)).sum =
      Finset.sum l.toFinset List.length := by
  rw [sum_dedup_eq, List.toFinset_filter, Finset.sum_filter]
  refine Finset.sum_congr rfl (fun x _ => ?_)
  by_cases h : x.isEmpty
  · simp [h, List.isEmpty_iff.mp h]
  · simp [h]

theorem minUtxoEntries_spec (pp : ProtocolParams) (hx : Bool) (era : String)
    (l : List (List Char × List Char)) :
    minUtxoEntries pp hx era l =
      max (minUTXOValueOf pp era) (minAdaSpec pp hx era l) := by
  rw [minUtxoEntries, collectors_eq]
  unfold minUtxoFromCollectors minAdaSpec roundupBytesToWordsSpec
    numPIDsSpec numAssetsSpec sumAssetNameLengthsSpec
  simp only [dedup_length_eq_card, sum_filter_nonempty, ite_gt_eq_max]

theorem min_utxo_math_entries (txOut : String) (pp : ProtocolParams)
    (hx : Bool) (era : String) (entries : List (List Char × List Char))
    (hlen : 2 < (splitChar '+' txOut.data).length)
    (hp : parseAssets ((splitChar '+' txOut.data).drop 2) = some entries) :
    min_utxo_math txOut pp hx era = .ok (minUtxoEntries pp hx era entries) := by
  rw [min_utxo_math]
  simp only [hlen, if_pos, hp]

theorem attempts_count_le (oracle : Nat → CmdResult) :
    ∀ (n i : Nat), (getCurrentTipAttempts oracle i n).2 ≤ n := by
  intro n
  induction n with
  | zero => intro i; simp [getCurrentTipAttempts]
  | succ n ih =>
    intro i
    cases h : oracle i <;> simp [getCurrentTipAttempts, h]
    exact ih (i + 1)

theorem attempts_mux (oracle : Nat → CmdResult) :
    ∀ (n i j : Nat), j + 1 < (getCurrentTipAttempts oracle i n).2 →
      oracle (i + j) = .muxError := by
  intro n
  induction n with
  | zero => intro i j h; simp [getCurrentTipAttempts] at h
  | succ n ih =>
    intro i j h
    cases ho : oracle i <;> simp only [getCurrentTipAttempts, ho] at h
    case success => exact absurd h (by omega)
    case connectionRefused => exact absurd h (by omega)
    case otherError => exact absurd h (by omega)
    case muxError =>
      cases j with
      | zero => simpa using ho
      | succ j' =>
        have hj : j' + 1 < (getCurrentTipAttempts oracle (i + 1) n).2 := by
          omega
        have := ih (i + 1) j' hj
        rwa [show i + 1 + j' = i + (j' + 1) by omega] at this

/-! The claims. -/

/-- Claim C1 (code bug): the specification says that a tx_out with at most
two plus-separated parts (no asset bundle) yields the flat baseline
minimum UTXO value, but for every such tx_out, every protocol-parameters
set, hex flag and era, `min_utxo_math` instead reads the never assigned
`pidCollector` at line 362 of `tx.py` and raises `UnboundLocalError`:
lines 362-375 sit outside the `if len(parts) > 2` block that creates the
collector lists. -/
theorem C1_no_assets_raises (txOut : String) (pp : ProtocolParams)
    (hx : Bool) (era : String)
    (h : (splitChar '+' txOut.data).length ≤ 2) :
    min_utxo_math txOut pp hx era = .error .unboundLocalError := by
  rw [min_utxo_math]
  simp only [if_neg (by omega : ¬ 2 < (splitChar '+' txOut.data).length)]

theorem C1_no_assets_raises_witness :
    (splitChar '+' "addr_test1vq+1000000".data).length ≤ 2 ∧
      min_utxo_math "addr_test1vq+1000000" sampleParams true "mary" =
        .error .unboundLocalError :=
  ⟨by decide, C1_no_assets_raises _ _ _ _ (by decide)⟩

/-- Claim C3: the era flag "alonzo" selects `k0 = 2`, making
`adaOnlyUTxOSize = 29` and the baseline `utxoCostPerWord * 29`; every
other era value selects `k0 = 0`, `adaOnlyUTxOSize = 27` and the flat
`minUTxOValue` parameter as baseline. -/
theorem C3_era_constants (pp : ProtocolParams) (era : String)
    (h : era ≠ "alonzo") :
    k0Of "alonzo" = 2 ∧ adaOnlyUTxOSizeOf "alonzo" = 29 ∧
      minUTXOValueOf pp "alonzo" = pp.utxoCostPerWord * 29 ∧
      k0Of era = 0 ∧ adaOnlyUTxOSizeOf era = 27 ∧
      minUTXOValueOf pp era = pp.minUTxOValue := by
  refine ⟨rfl, rfl, rfl, ?_, ?_, ?_⟩ <;>
    simp [k0Of, adaOnlyUTxOSizeOf, minUTXOValueOf, h]

theorem C3_era_constants_witness :
    k0Of "alonzo" = 2 ∧ adaOnlyUTxOSizeOf "alonzo" = 29 ∧
      minUTXOValueOf sampleParams "alonzo" = 34482 * 29 ∧
      k0Of "mary" = 0 ∧ adaOnlyUTxOSizeOf "mary" = 27 ∧
      minUTXOValueOf sampleParams "mary" = 1000000 :=
  C3_era_constants sampleParams "mary" (by decide)

/-- Claim C8 counterexample: on the odd-length hex string "abc" the claim
says `h2a` returns a decoded string, but `binascii.unhexlify` raises
`binascii.Error("Odd-length string")` right after the warning is logged,
so `h2a` raises. -/
theorem C8_h2a_odd_counterexample :
    h2a "abc" = .error (.binascii .oddLengthString) := rfl

/-- Claim C8 amended: an odd-length hex input to `h2a` is logged as a
warning, but `h2a` then raises the odd-length `binascii.Error` from
`unhexlify` instead of returning a decoded string. -/
theorem C8_h2a_odd_raises (s : String) (h : s.length % 2 = 1) :
    h2a s = .error (.binascii .oddLengthString) := by
  have hu : unhexlify s = .error .oddLengthString := by
    rw [unhexlify, if_pos h]
  simp only [h2a, hu]

theorem C8_h2a_odd_raises_witness :
    ("123" : String).length % 2 = 1 ∧
      h2a "123" = .error (.binascii .oddLengthString) :=
  ⟨by decide, C8_h2a_odd_raises "123" (by decide)⟩

/-- Claim C10: the retry loop of `get_current_tip` always terminates (the
model is a total function): with a retries budget of n the external query
tip command runs at most n times, and any invocation other than the last
one performed was followed by another only because it returned a transient
MuxError failure. -/
theorem C10_tip_retries_bounded (oracle : Nat → CmdResult) (n i : Nat)
    (h : i + 1 < (get_current_tip oracle n).2) :
    (get_current_tip oracle n).2 ≤ n ∧ oracle i = .muxError :=
  ⟨attempts_count_le oracle n 0, by
    have := attempts_mux oracle n 0 i (by simpa [get_current_tip] using h)
    simpa using this⟩

theorem C10_tip_retries_bounded_witness :
    (get_current_tip (fun _ => CmdResult.muxError) 3).2 ≤ 3 ∧
      (fun _ => CmdResult.muxError) 0 = CmdResult.muxError :=
  C10_tip_retries_bounded (fun _ => CmdResult.muxError) 3 0 (by decide)

/-- Claim C2: for every tx_out with at least one asset entry (more than
two plus-separated parts, all entries well formed) the result is
max(baseline, minAda) with minAda given by the formula of the
specification: `floor(minUTxOValue / adaOnlyUTxOSize) * (27 + 6 +
roundupBytesToWords)`, `roundupBytesToWords = floor((numAssets*12 +
sumAssetNameLengths + numPIDs*28 + 7) / 8)`, the counts taken over the
deduplicated policy ids and policy-id+name identifiers and the name
lengths summed over the set of distinct hex names and halved. -/
theorem C2_formula (txOut : String) (pp : ProtocolParams) (hx : Bool)
    (era : String) (entries : List (List Char × List Char))
    (hlen : 2 < (splitChar '+' txOut.data).length)
    (hp : parseAssets ((splitChar '+' txOut.data).drop 2) = some entries) :
    min_utxo_math txOut pp hx era =
      .ok (max (minUTXOValueOf pp era) (minAdaSpec pp hx era entries)) := by
  rw [min_utxo_math_entries txOut pp hx era entries hlen hp,
    minUtxoEntries_spec]

theorem C2_formula_witness :
    2 < (splitChar '+' "a+1+5 p.6162".data).length ∧
      parseAssets ((splitChar '+' "a+1+5 p.6162".data).drop 2) =
        some [(['p'], ['6', '1', '6', '2'])] ∧
      min_utxo_math "a+1+5 p.6162" sampleParams true "mary" =
        .ok (max (minUTXOValueOf sampleParams "mary")
          (minAdaSpec sampleParams true "mary" [(['p'], ['6', '1', '6', '2'])])) :=
  ⟨by decide, by decide, C2_formula _ _ _ _ _ (by decide) (by decide)⟩

/-- Claim C4: with fixed protocol parameters, flags and era, appending a
further asset entry (in particular one with a new distinct policy id or a
new distinct asset name) never lowers the computed minimum: the post-parse
value of `min_utxo_math` is monotonically non-decreasing in the bundle. -/
theorem C4_monotone (pp : ProtocolParams) (hx : Bool) (era : String)
    (entries : List (List Char × List Char)) (e : List Char × List Char) :
    minUtxoEntries pp hx era entries ≤
      minUtxoEntries pp hx era (entries ++ [e]) := by
  rw [minUtxoEntries_spec, minUtxoEntries_spec]
  refine max_le_max le_rfl ?_
  unfold minAdaSpec
  refine Nat.mul_le_mul le_rfl (Nat.add_le_add_left (Nat.add_le_add_left ?_ _) _)
  unfold roundupBytesToWordsSpec
  refine Nat.div_le_div_right ?_
  have hsub : ∀ f : List Char × List Char → List Char,
      (entries.map f).toFinset ⊆ ((entries ++ [e]).map f).toFinset := by
    intro f
    rw [List.map_append, List.toFinset_append]
    exact Finset.subset_union_left
  have hP : numPIDsSpec entries ≤ numPIDsSpec (entries ++ [e]) :=
    Finset.card_le_card (hsub _)
  have hA : numAssetsSpec hx entries ≤ numAssetsSpec hx (entries ++ [e]) :=
    Finset.card_le_card (hsub _)
  have hS : sumAssetNameLengthsSpec hx entries ≤
      sumAssetNameLengthsSpec hx (entries ++ [e]) :=
    Nat.div_le_div_right (Finset.sum_le_sum_of_subset (hsub _))
  have h1 : numAssetsSpec hx entries * 12 ≤ numAssetsSpec hx (entries ++ [e]) * 12 :=
    Nat.mul_le_mul_right _ hA
  have h2 : numPIDsSpec entries * 28 ≤ numPIDsSpec (entries ++ [e]) * 28 :=
    Nat.mul_le_mul_right _ hP
  omega

theorem toFinset_middle {α : Type} [DecidableEq α] (l₁ l₂ : List α) (a : α)
    (h : a ∈ l₁) : (l₁ ++ a :: l₂).toFinset = (l₁ ++ l₂).toFinset := by
  ext x
  simp only [List.mem_toFinset, List.mem_append, List.mem_cons]
  constructor
  · rintro (h1 | rfl | h2)
    exacts [Or.inl h1, Or.inl h, Or.inr h2]
  · rintro (h1 | h2)
    exacts [Or.inl h1, Or.inr (Or.inr h2)]

/-- Claim C5: an asset entry whose (policy id, asset name) pair already
occurs earlier in the bundle is counted once by the deduplicated
collectors: the post-parse value of `min_utxo_math` on the bundle with the
duplicate entry equals its value with the duplicate removed. -/
theorem C5_duplicate_entry (pp : ProtocolParams) (hx : Bool) (era : String)
    (l₁ l₂ : List (List Char × List Char)) (e : List Char × List Char)
    (h : e ∈ l₁) :
    minUtxoEntries pp hx era (l₁ ++ e :: l₂) =
      minUtxoEntries pp hx era (l₁ ++ l₂) := by
  rw [minUtxoEntries_spec, minUtxoEntries_spec]
  have hmid : ∀ f : List Char × List Char → List Char,
      ((l₁ ++ e :: l₂).map f).toFinset = ((l₁ ++ l₂).map f).toFinset := by
    intro f
    rw [List.map_append, List.map_cons, List.map_append]
    exact toFinset_middle _ _ _ (List.mem_map_of_mem f h)
  congr 1
  unfold minAdaSpec roundupBytesToWordsSpec numPIDsSpec numAssetsSpec
    sumAssetNameLengthsSpec
  rw [hmid, hmid, hmid]

theorem C5_duplicate_entry_witness :
    (⟨['p'], ['6', '1']⟩ : List Char × List Char) ∈ [(['p'], ['6', '1'])] ∧
      minUtxoEntries sampleParams true "mary"
          ([(['p'], ['6', '1'])] ++ (⟨['p'], ['6', '1']⟩ : List Char × List Char) :: []) =
        minUtxoEntries sampleParams true "mary" ([(['p'], ['6', '1'])] ++ []) :=
  ⟨by decide, C5_duplicate_entry _ _ _ _ _ _ (by decide)⟩

/-- Claim C6: parsing a tx_out whose asset names are raw text with the
hex flag off gives the same result as parsing a tx_out whose names are the
UTF-8 hex encodings of those names with the hex flag on, for identical
protocol parameters and era. -/
theorem C6_hex_ascii_equiv (txOut₁ txOut₂ : String) (pp : ProtocolParams)
    (era : String) (entries : List (List Char × List Char))
    (h1 : 2 < (splitChar '+' txOut₁.data).length)
    (hp1 : parseAssets ((splitChar '+' txOut₁.data).drop 2) = some entries)
    (h2 : 2 < (splitChar '+' txOut₂.data).length)
    (hp2 : parseAssets ((splitChar '+' txOut₂.data).drop 2) =
      some (entries.map (fun e => (e.1, encodeHex e.2)))) :
    min_utxo_math txOut₁ pp false era = min_utxo_math txOut₂ pp true era := by
  rw [min_utxo_math_entries _ _ _ _ _ h1 hp1,
    min_utxo_math_entries _ _ _ _ _ h2 hp2]
  simp [minUtxoEntries, collectors_eq, List.map_map, hexNameOf,
    Function.comp_def]

theorem C6_hex_ascii_equiv_witness :
    parseAssets ((splitChar '+' "a+1+5 p.ab".data).drop 2) =
        some [(['p'], ['a', 'b'])] ∧
      parseAssets ((splitChar '+' "a+1+5 p.6162".data).drop 2) =
        some ([(['p'], ['a', 'b'])].map (fun e => (e.1, encodeHex e.2))) ∧
      min_utxo_math "a+1+5 p.ab" sampleParams false "mary" =
        min_utxo_math "a+1+5 p.6162" sampleParams true "mary" :=
  ⟨by decide, by decide,
    C6_hex_ascii_equiv "a+1+5 p.ab" "a+1+5 p.6162" sampleParams "mary"
      [(['p'], ['a', 'b'])] (by decide) (by decide) (by decide) (by decide)⟩

theorem parseAssets_none_of_mem (parts : List (List Char))
    (part : List Char) (hmem : part ∈ parts)
    (hbad : parseAssetPart part = none) : parseAssets parts = none := by
  induction parts with
  | nil => cases hmem
  | cons p rest ih =>
    rcases List.mem_cons.mp hmem with rfl | hm
    · simp [parseAssets, hbad]
    · cases h1 : parseAssetPart p <;> simp [parseAssets, h1, ih hm]

/-- Claim C7 counterexample: the asset part "10 pid.na.me" has the wrong
delimiter count (two dots instead of one), yet `min_utxo_math` returns a
lovelace value rather than failing: the surplus dot-separated field is
silently ignored. -/
theorem C7_malformed_counterexample :
    (splitChar '.' "pid.na.me".data).length ≠ 2 ∧
      min_utxo_math "addr+100+10 pid.na.me" sampleParams true "mary" =
        .ok 1444443 :=
  ⟨by decide, rfl⟩

/-- Claim C7 amended: an asset part with too few delimiters — no second
space-separated token, or no dot in the asset hash — makes
`min_utxo_math` fail (Python raises IndexError); parts with surplus
delimiters are accepted with the surplus fields ignored. -/
theorem C7_missing_delimiter_fails (txOut : String) (pp : ProtocolParams)
    (hx : Bool) (era : String) (part : List Char)
    (hmem : part ∈ (splitChar '+' txOut.data).drop 2)
    (hbad : (tokensOf part).tail = [] ∨
      ∃ q ah rest, tokensOf part = q :: ah :: rest ∧ (splitChar '.' ah).tail = []) :
    min_utxo_math txOut pp hx era = .error .indexError := by
  have hlen : 2 < (splitChar '+' txOut.data).length := by
    by_contra hc
    have : (splitChar '+' txOut.data).drop 2 = [] :=
      List.drop_eq_nil_of_le (by omega)
    rw [this] at hmem
    cases hmem
  have hnone : parseAssetPart part = none := by
    rcases hbad with h | ⟨q, ah, rest, hq, hdot⟩
    · cases ht : tokensOf part with
      | nil => rw [parseAssetPart, ht]
      | cons a t =>
        rw [ht] at h
        simp only [List.tail_cons] at h
        subst h
        rw [parseAssetPart, ht]
    · cases hd : splitChar '.' ah with
      | nil => rw [parseAssetPart, hq]; simp [hd]
      | cons x xs =>
        rw [hd] at hdot
        simp only [List.tail_cons] at hdot
        subst hdot
        rw [parseAssetPart, hq]
        simp [hd]
  rw [min_utxo_math]
  simp only [hlen, if_pos,
    parseAssets_none_of_mem _ _ hmem hnone]

theorem C7_missing_delimiter_fails_witness :
    ['5'] ∈ (splitChar '+' "addr+100+5".data).drop 2 ∧
      (tokensOf ['5']).tail = [] ∧
      min_utxo_math "addr+100+5" sampleParams true "mary" =
        .error .indexError :=
  ⟨by decide, by decide,
    C7_missing_delimiter_fails "addr+100+5" sampleParams true "mary" ['5']
      (by decide) (Or.inl (by decide))⟩

theorem parseAssetPart_eq_tail (p : List Char) :
    parseAssetPart p =
      (match (tokensOf p).tail with
       | assetHash :: _ =>
         (match splitChar '.' assetHash with
          | policy :: hexname :: _ => some (policy, hexname)
          | _ => none)
       | [] => none) := by
  cases h1 : tokensOf p with
  | nil => simp [parseAssetPart, h1]
  | cons a t =>
    cases t with
    | nil => simp [parseAssetPart, h1]
    | cons ah r => simp [parseAssetPart, h1]

theorem parseAssetPart_tail_eq (p1 p2 : List Char)
    (h : (tokensOf p1).tail = (tokensOf p2).tail) :
    parseAssetPart p1 = parseAssetPart p2 := by
  rw [parseAssetPart_eq_tail, parseAssetPart_eq_tail, h]

theorem parseAssets_tail_eq (ps1 ps2 : List (List Char))
    (h : List.Forall₂ (fun a b => (tokensOf a).tail = (tokensOf b).tail) ps1 ps2) :
    parseAssets ps1 = parseAssets ps2 := by
  induction h with
  | nil => rfl
  | cons hab _ ih =>
    rw [parseAssets, parseAssets, parseAssetPart_tail_eq _ _ hab, ih]

/-- Claim C9: two tx_out strings with the same number of plus-separated
parts whose asset parts differ only in the quantity token (token 0; the
tokens from index 1 on are identical) give the same result of
`min_utxo_math` under the same parameters, flag and era: the declared
quantities never influence the computed minimum. -/
theorem C9_quantities_irrelevant (txOut₁ txOut₂ : String)
    (pp : ProtocolParams) (hx : Bool) (era : String)
    (hlen : (splitChar '+' txOut₁.data).length =
      (splitChar '+' txOut₂.data).length)
    (hq : List.Forall₂ (fun a b => (tokensOf a).tail = (tokensOf b).tail)
      ((splitChar '+' txOut₁.data).drop 2)
      ((splitChar '+' txOut₂.data).drop 2)) :
    min_utxo_math txOut₁ pp hx era = min_utxo_math txOut₂ pp hx era := by
  rw [min_utxo_math, min_utxo_math, parseAssets_tail_eq _ _ hq, hlen]

theorem C9_quantities_irrelevant_witness :
    (tokensOf "5 p.6162".data).tail = (tokensOf "7 p.6162".data).tail ∧
      min_utxo_math "a+1+5 p.6162" sampleParams true "mary" =
        min_utxo_math "a+1+7 p.6162" sampleParams true "mary" :=
  ⟨by decide,
    C9_quantities_irrelevant _ _ _ _ _ (by decide)
      (List.Forall₂.cons (by decide) List.Forall₂.nil)⟩

end Adaops
